import Mathlib

/-!
Verification development for the `foreman_subnet` Ansible module
(`foreman_subnet.py`): a declarative-state reconciler for Foreman subnet
resources.  We embed the module's comparison helpers and its `ensure`
reconciliation routine, modelling the external Foreman client
(search/get/create/update/delete) as pure operations on an explicit remote
state, and log every remote call as an event so that ordering and
at-most-once properties can be stated.
-/

set_option maxHeartbeats 1000000
set_option linter.unreachableTactic false
set_option linter.unnecessarySeqFocus false
set_option linter.unusedTactic false

/-- A field value in a subnet record: the module only stores strings
(parameters are all `type=str`) and resolved numeric identifiers
(`dns_id`, `dhcp_id`, ...). -/
inductive Value
  | s (v : String)
  | n (v : Nat)
  deriving DecidableEq

/-- A named remote entity (domain, organization, location, smart proxy):
a record with `id` and `name`, as returned by `search_resource`. -/
structure Entity where
  id : Nat
  name : String
  deriving DecidableEq

/-- A dict-shaped record, as used both for the prepared desired data and
for the remote subnet record.  Scalar dict entries are the `fields`
function (Python `dict.get(key, None)` is `fields key`).  The `domains`
entry can be Python `None` — the parameter's documented default, copied raw
into the data dict by `prepare_data` — or a list of entities, so it is an
`Option`; the organization/location associations (consumed only by the
spec-modelled comparisons) are kept as entity lists. -/
structure Record where
  fields : String → Option Value
  domains : Option (List Entity)
  organizations : List Entity
  locations : List Entity

/-- Python `list.sort()` sorts in place and returns `None`; the source binds
the result of `list(map(...)).sort()`, so the bound value is always `None`
regardless of the list contents.  This function is the value of that
expression. -/
def pySortReturn (_xs : List String) : Option (List String) :=
  none

/-- Embedding of `domains_equal` (foreman_subnet.py lines 170-175).  When a
record's `domains` entry is `None` (or missing), `list(map(lambda d:
d['name'], ...))` raises TypeError: the result is `none` (an uncaught
exception).  When both entries are lists, both `data_domains` and
`subnet_domains` are the return value of `list.sort()`, i.e. Python `None`,
so the inequality test compares `None` with `None` and the function returns
`True`. -/
def domains_equal (data subnet : Record) : Option Bool :=
  match data.domains, subnet.domains with
  | some ddoms, some sdoms =>
    let data_domains := pySortReturn (ddoms.map Entity.name)
    let subnet_domains := pySortReturn (sdoms.map Entity.name)
    some (if data_domains ≠ subnet_domains then false else true)
  | _, _ => none

/-- Lexicographic order on lists of naturals, used to order strings by
their character codes. -/
def natListLe : List Nat → List Nat → Bool
  | [], _ => true
  | _ :: _, [] => false
  | a :: as, b :: bs => if a < b then true else if b < a then false else natListLe as bs

/-- String comparison by character codes (Python's default string order). -/
def strLe (a b : String) : Bool :=
  natListLe (a.data.map Char.toNat) (b.data.map Char.toNat)

/-- Insert a name into a sorted list of names. -/
def insertSorted (a : String) : List String → List String
  | [] => [a]
  | b :: bs => if strLe a b then a :: b :: bs else b :: insertSorted a bs

/-- Sorting a list of names (insertion sort), as the documented comparison
intends: sort, do not deduplicate. -/
def sortNames : List String → List String
  | [] => []
  | a :: as => insertSorted a (sortNames as)

/-- Modelled from the spec: the intended association comparison that the
spec documents for `domains_equal` — extract each referenced entity's name,
sort, and compare sequences for exact equality. -/
def domains_equal_intended (data subnet : Record) : Bool :=
  decide (sortNames ((data.domains.getD []).map Entity.name)
    = sortNames ((subnet.domains.getD []).map Entity.name))

/-- Modelled from the spec: `organizations_equal` comes from
`ansible.module_utils.foreman_utils`, which is not in `src/`; the spec says
the three association fields are compared "by extracting each referenced
entity's name, sorting, and comparing sequences for exact equality". -/
def organizations_equal (data subnet : Record) : Bool :=
  decide (sortNames (data.organizations.map Entity.name)
    = sortNames (subnet.organizations.map Entity.name))

/-- Modelled from the spec: `locations_equal` comes from
`ansible.module_utils.foreman_utils`, which is not in `src/`; same
sorted-name comparison as for organizations. -/
def locations_equal (data subnet : Record) : Bool :=
  decide (sortNames (data.locations.map Entity.name)
    = sortNames (subnet.locations.map Entity.name))

/-- The fixed list of scalar keys compared by `subnets_equal`
(foreman_subnet.py lines 179-180). -/
def comparable_keys : List String :=
  ["name", "dns_primary", "dns_secondary", "gateway", "ipam", "boot_mode",
   "mask", "network", "vlanid", "from", "to", "tftp_id", "dns_id",
   "dhcp_id", "discovery_id"]

/-- Embedding of `subnets_equal` (foreman_subnet.py lines 178-189):
`all(data.get(key, None) == subnet.get(key, None) for key in comparable_keys)`
followed by the three association comparisons.  The `all(...)` check
short-circuits before `domains_equal` is called; if it passes and a
`domains` entry is `None`, `domains_equal` raises TypeError and the
exception propagates (`none`). -/
def subnets_equal (data subnet : Record) : Option Bool :=
  if ¬ (comparable_keys.all fun key => decide (data.fields key = subnet.fields key)) then
    some false
  else
    match domains_equal data subnet with
    | none => none
    | some de =>
      if ¬ de then some false
      else if ¬ organizations_equal data subnet then some false
      else if ¬ locations_equal data subnet then some false
      else some true

/-- Record with a single domain named "a" and nothing else. -/
def recDomA : Record :=
  { fields := fun _ => none
    domains := some [⟨1, "a"⟩]
    organizations := []
    locations := [] }

/-- Record with a single domain named "b" and nothing else. -/
def recDomB : Record :=
  { fields := fun _ => none
    domains := some [⟨2, "b"⟩]
    organizations := []
    locations := [] }

/-! ## The remote state, the external client, and the event log -/

/-- A subnet record stored remotely: the record plus its remote identifier
(`subnet.get('id')` on a fetched record). -/
structure Stored where
  id : Nat
  record : Record

/-- The remote Foreman state visible to the module: the subnet table and the
four searchable entity tables, plus the next id handed out on create. -/
structure Remote where
  subnets : List Stored
  domains : List Entity
  smart_proxies : List Entity
  organizations : List Entity
  locations : List Entity
  nextId : Nat

/-- One remote API call issued by the module.  Read calls are
`searchSubnet`/`getSubnet`/`searchResource`; mutating calls are
`createSubnet`/`deleteSubnet`/`updateSubnet`. -/
inductive Event
  | searchSubnet (name : String)
  | getSubnet (id : Nat)
  | searchResource (rtype : String) (name : String)
  | createSubnet
  | deleteSubnet (id : Nat)
  | updateSubnet (id : Nat)
  deriving DecidableEq

/-- Terminal failures of a run: `notFound` is raised through
`module.fail_json` when a named reference cannot be found ("Could not find
resource type ... defined as ...", lines 204-207); `typeError` is the
uncaught Python TypeError escaping `domains_equal` when a `domains` entry is
`None` (nothing catches it, the process crashes). -/
inductive Err
  | notFound (rtype : String) (name : String)
  | typeError
  deriving DecidableEq

/-- Does a stored subnet's `name` field equal the searched name? -/
def isNamed (n : String) (s : Stored) : Bool :=
  decide (s.record.fields "name" = some (Value.s n))

/-- Modelled from the spec: the client's `search_subnet` — search remote
subnets by `name`, returning the (first) match. -/
def search_subnet (w : Remote) (n : String) : Option Stored :=
  w.subnets.find? (isNamed n)

/-- Modelled from the spec: the client's `get_subnet` — fetch the full
record by id. -/
def get_subnet (w : Remote) (i : Nat) : Option Stored :=
  w.subnets.find? fun s => decide (s.id = i)

/-- The entity table a resource type name designates. -/
def resourceList (w : Remote) (rtype : String) : List Entity :=
  if rtype = "domains" then w.domains
  else if rtype = "smart_proxies" then w.smart_proxies
  else if rtype = "organizations" then w.organizations
  else if rtype = "locations" then w.locations
  else []

/-- Modelled from the spec: the client's `search_resource` — search-by-name
lookup of a named external entity. -/
def search_resource (w : Remote) (rtype : String) (n : String) : Option Entity :=
  (resourceList w rtype).find? fun e => decide (e.name = n)

/-- Modelled from the spec: the client's `create_subnet` — store the data
under a fresh id and return the created record. -/
def create_subnet (w : Remote) (data : Record) : Stored × Remote :=
  let s : Stored := ⟨w.nextId, data⟩
  (s, { w with subnets := w.subnets ++ [s], nextId := w.nextId + 1 })

/-- Modelled from the spec: the client's `delete_subnet` — remove the record
with the given id and return the deleted record. -/
def delete_subnet (w : Remote) (i : Nat) : Option Stored × Remote :=
  (w.subnets.find? (fun s => decide (s.id = i)),
   { w with subnets := w.subnets.filter fun s => decide (¬ s.id = i) })

/-- Modelled from the spec: the client's `update_subnet` — replace the data
of the record with the given id, keeping its id, and return the updated
record. -/
def update_subnet (w : Remote) (i : Nat) (data : Record) : Stored × Remote :=
  (⟨i, data⟩,
   { w with subnets := w.subnets.map fun s => if s.id = i then ⟨s.id, data⟩ else s })

/-! ## Reference resolution (`get_resources`, `prepare_data`) -/

/-- Sequencing for computations that log events and may fail through
`module.fail_json`: events accumulate, the first failure aborts. -/
def mbind (x : List Event × Except Err α) (f : α → List Event × Except Err β) :
    List Event × Except Err β :=
  match x with
  | (evs, Except.error e) => (evs, Except.error e)
  | (evs, Except.ok a) =>
    let r := f a
    (evs ++ r.1, r.2)

/-- Embedding of `get_resources` (foreman_subnet.py lines 192-212): resolve
each name of the list through `search_resource`, failing with a
resource-not-found error on the first name with no match.  Every attempted
search is logged. -/
def get_resources (w : Remote) (rtype : String) : List String →
    List Event × Except Err (List Entity)
  | [] => ([], Except.ok [])
  | n :: rest =>
    match search_resource w rtype n with
    | none => ([Event.searchResource rtype n], Except.error (Err.notFound rtype n))
    | some e =>
      mbind (([Event.searchResource rtype n], Except.ok e)) fun e0 =>
        (match get_resources w rtype rest with
         | (evs, Except.error err) => (evs, Except.error err)
         | (evs, Except.ok l) => (evs, Except.ok (e0 :: l)))

/-- Resolution of one optional proxy parameter (foreman_subnet.py lines
227-235): when the parameter is set, resolve it as a `smart_proxies`
resource and keep its `id`; when unset, the id entry is set to `None`. -/
def resolveProxy (w : Remote) : Option String → List Event × Except Err (Option Nat)
  | none => ([], Except.ok none)
  | some n =>
    match search_resource w "smart_proxies" n with
    | none => ([Event.searchResource "smart_proxies" n],
               Except.error (Err.notFound "smart_proxies" n))
    | some e => ([Event.searchResource "smart_proxies" n], Except.ok (some e.id))

/-- The `domains` entry of the prepared data (foreman_subnet.py lines
216-219 and 224-226): `prepare_data` first copies the raw parameter
(`None` when omitted), then overwrites it with the records resolved by
`get_resources` only when the parameter is truthy (a non-empty list).  So
the entry is `None` when the parameter is `None`, the raw empty list when
the parameter is `[]`, and the resolved entities otherwise. -/
def resolveDomains (w : Remote) : Option (List String) →
    List Event × Except Err (Option (List Entity))
  | none => ([], Except.ok none)
  | some names =>
    if names = [] then ([], Except.ok (some []))
    else
      match get_resources w "domains" names with
      | (evs, Except.error e) => (evs, Except.error e)
      | (evs, Except.ok l) => (evs, Except.ok (some l))

/-- The module's input parameters (the argument spec of `main`, restricted
to what `ensure` reads).  Optional string parameters are `Option String`.
List parameters default to Python `None` when omitted, so `domains` is an
`Option`; `organizations`/`locations` are only ever read through truthiness
tests, so their omitted default is modelled as the empty list. -/
structure Params where
  name : String
  state : String
  dns_primary : Option String
  dns_secondary : Option String
  gateway : Option String
  ipam : Option String
  boot_mode : Option String
  mask : Option String
  network : Option String
  vlanid : Option String
  ip_from : Option String
  ip_to : Option String
  dns_proxy : Option String
  dhcp_proxy : Option String
  tftp_proxy : Option String
  discovery_proxy : Option String
  domains : Option (List String)
  organizations : List String
  locations : List String

/-- The scalar entries of the prepared data dict (foreman_subnet.py lines
216-223 and 227-235): `name` from the initial dict, the scalar parameters
copied in `prepare_data`, `from`/`to` from `ip_from`/`ip_to`, and the four
resolved proxy ids.  Every other key is absent (`dict.get` yields `None`). -/
def buildFields (p : Params) (dnsId dhcpId tftpId discoveryId : Option Nat) :
    String → Option Value := fun k =>
  if k = "name" then some (Value.s p.name)
  else if k = "dns_primary" then p.dns_primary.map Value.s
  else if k = "dns_secondary" then p.dns_secondary.map Value.s
  else if k = "gateway" then p.gateway.map Value.s
  else if k = "ipam" then p.ipam.map Value.s
  else if k = "boot_mode" then p.boot_mode.map Value.s
  else if k = "mask" then p.mask.map Value.s
  else if k = "network" then p.network.map Value.s
  else if k = "vlanid" then p.vlanid.map Value.s
  else if k = "from" then p.ip_from.map Value.s
  else if k = "to" then p.ip_to.map Value.s
  else if k = "dns_id" then dnsId.map Value.n
  else if k = "dhcp_id" then dhcpId.map Value.n
  else if k = "tftp_id" then tftpId.map Value.n
  else if k = "discovery_id" then discoveryId.map Value.n
  else none

/-- The prepared desired data record assembled from the parameters and the
resolution results: scalar fields plus the `domains` entry (`None` or the
resolved domain entities, see `resolveDomains`) and the organization /
location entities resolved in `ensure` (stored in the dict as
`organization_ids`/`location_ids`; kept here as entity lists, which is what
the sorted-name association comparisons consume). -/
def buildData (p : Params) (dnsId dhcpId tftpId discoveryId : Option Nat)
    (doms : Option (List Entity)) (orgs locs : List Entity) : Record :=
  { fields := buildFields p dnsId dhcpId tftpId discoveryId
    domains := doms
    organizations := orgs
    locations := locs }

/-- The reference-resolution pipeline of `ensure` in source order
(foreman_subnet.py lines 256-262 and `prepare_data`): organizations and
locations when non-empty (modelled from the spec: `get_organization_ids` /
`get_location_ids` are in `foreman_utils`, not in `src/`; per the spec any
unresolved named reference fails immediately), then the domains entry via
`resolveDomains`, then the four proxies in source order dns, dhcp, tftp,
discovery. -/
def prepareOutcome (p : Params) (w : Remote) : List Event × Except Err Record :=
  mbind (if p.organizations ≠ [] then get_resources w "organizations" p.organizations
         else ([], Except.ok [])) fun orgs =>
  mbind (if p.locations ≠ [] then get_resources w "locations" p.locations
         else ([], Except.ok [])) fun locs =>
  mbind (resolveDomains w p.domains) fun doms =>
  mbind (resolveProxy w p.dns_proxy) fun dnsId =>
  mbind (resolveProxy w p.dhcp_proxy) fun dhcpId =>
  mbind (resolveProxy w p.tftp_proxy) fun tftpId =>
  mbind (resolveProxy w p.discovery_proxy) fun discoveryId =>
  ([], Except.ok (buildData p dnsId dhcpId tftpId discoveryId doms orgs locs))

/-! ## The reconciler `ensure` -/

/-- The subnet record `ensure` works with after a search hit `s`: the full
record fetched by id (`get_subnet(id=subnet.get('id'))`); the search hit
itself is the fallback, unreachable when ids are consistent. -/
def fetched (w : Remote) (s : Stored) : Stored :=
  (get_subnet w s.id).getD s

/-- Result of one `ensure` invocation: the full ordered log of remote calls,
the outcome (`fail_json` error, or the `(changed, subnet)` pair), and the
remote state after the invocation. -/
structure EnsureResult where
  events : List Event
  outcome : Except Err (Bool × Option Record)
  world : Remote

/-- Embedding of `ensure` (foreman_subnet.py lines 239-286): search the
subnet by name and, when found, fetch the full record by id; resolve
organizations, locations and the prepared data (aborting on a resolution
failure); then apply the decision table — create when absent remotely and
state is present, delete when present remotely and state is absent,
update when present remotely and the records compare different, no-op when
they compare equal, and an uncaught TypeError when the comparison itself
crashes on a `None` domains entry. -/
def ensure (p : Params) (w : Remote) : EnsureResult :=
  let searchRes := search_subnet w p.name
  let fetchEvents :=
    match searchRes with
    | none => [Event.searchSubnet p.name]
    | some s => [Event.searchSubnet p.name, Event.getSubnet s.id]
  let subnet : Option Stored :=
    match searchRes with
    | none => none
    | some s => some (fetched w s)
  match prepareOutcome p w with
  | (prepEvents, Except.error e) =>
    ⟨fetchEvents ++ prepEvents, Except.error e, w⟩
  | (prepEvents, Except.ok data) =>
    match subnet with
    | none =>
      if p.state = "present" then
        let cr := create_subnet w data
        ⟨fetchEvents ++ prepEvents ++ [Event.createSubnet],
         Except.ok (true, some cr.1.record), cr.2⟩
      else
        ⟨fetchEvents ++ prepEvents, Except.ok (false, none), w⟩
    | some s =>
      if p.state = "absent" then
        let dr := delete_subnet w s.id
        ⟨fetchEvents ++ prepEvents ++ [Event.deleteSubnet s.id],
         Except.ok (true, dr.1.map Stored.record), dr.2⟩
      else
        match subnets_equal data s.record with
        | none =>
          ⟨fetchEvents ++ prepEvents, Except.error Err.typeError, w⟩
        | some false =>
          let ur := update_subnet w s.id data
          ⟨fetchEvents ++ prepEvents ++ [Event.updateSubnet s.id],
           Except.ok (true, some ur.1.record), ur.2⟩
        | some true =>
          ⟨fetchEvents ++ prepEvents, Except.ok (false, some s.record), w⟩

/-- Is an event one of the three mutating calls? -/
def isMutating : Event → Bool
  | Event.createSubnet => true
  | Event.deleteSubnet _ => true
  | Event.updateSubnet _ => true
  | _ => false

/-- Is an event a fetch of the managed subnet (search by name or get by
id)? -/
def isFetchEvent : Event → Bool
  | Event.searchSubnet _ => true
  | Event.getSubnet _ => true
  | _ => false

/-- Is an event a cross-reference resolution lookup? -/
def isResolveEvent : Event → Bool
  | Event.searchResource _ _ => true
  | _ => false

/-- The mutating calls of an event log, in order. -/
def mutatingEvents (evs : List Event) : List Event :=
  evs.filter isMutating


/-- The condition "some named reference of the desired state cannot be
resolved remotely": a listed organization, location or domain name, or a
configured proxy name, with no `search_resource` match. -/
def RefsBroken (p : Params) (w : Remote) : Prop :=
  (∃ n ∈ p.organizations, search_resource w "organizations" n = none) ∨
  (∃ n ∈ p.locations, search_resource w "locations" n = none) ∨
  (∃ names, p.domains = some names ∧
    ∃ n ∈ names, search_resource w "domains" n = none) ∨
  (∃ n, (p.dns_proxy = some n ∨ p.dhcp_proxy = some n ∨ p.tftp_proxy = some n ∨
         p.discovery_proxy = some n) ∧ search_resource w "smart_proxies" n = none)


/-- Does an event trace place every cross-reference resolution before the
subnet fetch?  True iff after the first fetch event no resolution event
occurs. -/
def resolutionPrecedesFetch : List Event → Bool
  | [] => true
  | e :: rest =>
    if isFetchEvent e then rest.all fun x => !(isResolveEvent x)
    else resolutionPrecedesFetch rest

/-- Does an event trace place the subnet fetch before every cross-reference
resolution?  True iff after the first resolution event no fetch event
occurs. -/
def fetchPrecedesResolution : List Event → Bool
  | [] => true
  | e :: rest =>
    if isResolveEvent e then rest.all fun x => !(isFetchEvent x)
    else fetchPrecedesResolution rest


/-- Record whose `mask` field is set and nothing else. -/
def recMaskA : Record :=
  { fields := fun k => if k = "mask" then some (Value.s "255.255.255.0") else none
    domains := some []
    organizations := []
    locations := [] }

/-- Record with no fields at all. -/
def recMaskB : Record :=
  { fields := fun _ => none
    domains := some []
    organizations := []
    locations := [] }

/-- Like `recMaskA` but with an extra `comment` entry outside the compared
key set. -/
def recMaskAJunk : Record :=
  { fields := fun k =>
      if k = "mask" then some (Value.s "255.255.255.0")
      else if k = "comment" then some (Value.s "x") else none
    domains := some []
    organizations := []
    locations := [] }

/-- A minimal desired state: name `MySubnet`, state present, a network and a
mask, no references; the `domains` parameter is omitted (its documented
default `None`). -/
def pCreate : Params :=
  { name := "MySubnet", state := "present", dns_primary := none,
    dns_secondary := none, gateway := none, ipam := none,
    boot_mode := some "DHCP", mask := some "255.255.255.0",
    network := some "192.168.123.0", vlanid := none, ip_from := none,
    ip_to := none, dns_proxy := none, dhcp_proxy := none, tftp_proxy := none,
    discovery_proxy := none, domains := none, organizations := [],
    locations := [] }

/-- `pCreate` with state absent. -/
def pAbsent : Params :=
  { pCreate with state := "absent" }

/-- `pCreate` with a dns proxy name configured. -/
def pProxy : Params :=
  { pCreate with dns_proxy := some "proxy.example.com" }

/-- `pCreate` with one organization listed. -/
def pOrg : Params :=
  { pCreate with organizations := ["Dalek Inc"] }

/-- An empty remote state. -/
def wEmpty : Remote :=
  { subnets := [], domains := [], smart_proxies := [], organizations := [],
    locations := [], nextId := 1 }

/-- The prepared data `ensure` computes for `pCreate` (no references, no
proxies; the `domains` entry stays `None`). -/
def dCreate : Record :=
  buildData pCreate none none none none none [] []

/-- A stored remote subnet named `MySubnet` whose record has only its name
set (so it differs from `dCreate` on `mask`). -/
def sExisting : Stored :=
  ⟨7, { fields := fun k => if k = "name" then some (Value.s "MySubnet") else none
        domains := some []
        organizations := []
        locations := [] }⟩

/-- Remote state holding exactly `sExisting`. -/
def wExisting : Remote :=
  { wEmpty with subnets := [sExisting], nextId := 8 }

/-- A stored remote subnet whose record agrees with the prepared data
`dCreate` on every compared scalar field; its `domains` entry is the empty
list a real fetched record carries, while `dCreate`'s is `None`. -/
def sConverged : Stored :=
  ⟨7, { dCreate with domains := some [] }⟩

/-- Remote state holding exactly `sConverged`. -/
def wConverged : Remote :=
  { wEmpty with subnets := [sConverged], nextId := 8 }

/-- Remote state with one organization and no subnet. -/
def wOrg : Remote :=
  { wEmpty with organizations := [⟨3, "Dalek Inc"⟩] }


/-! ## Theorems -/

/-- C1: the claim states that `domains_equal` returns true iff the two
sorted lists of extracted domain names are equal, and in particular false
whenever they differ.  Evaluating the code on records whose domain names are
`["a"]` and `["b"]`: the sorted name lists differ, yet `domains_equal`
returns `True` (`some true`), because `list(map(...)).sort()` returns
`None` on both sides, so the comparison never sees the names.  The code
contradicts the spec's documented behaviour (the spec itself flags the
discarded sort return value as an apparent defect), so this is a bug in
the code. -/
theorem C1_domains_equal_always_true_on_differing_names :
    domains_equal recDomA recDomB = some true ∧
    sortNames ((recDomA.domains.getD []).map Entity.name)
      ≠ sortNames ((recDomB.domains.getD []).map Entity.name) ∧
    domains_equal_intended recDomA recDomB = false := by
  refine ⟨rfl, by decide, by decide⟩


/-! ## Helper lemmas about the resolution pipeline -/

theorem fetched_id (w : Remote) (s : Stored) : (fetched w s).id = s.id := by
  unfold fetched get_subnet
  cases hf : w.subnets.find? (fun x => decide (x.id = s.id)) with
  | none => rfl
  | some x =>
    have h := List.find?_some hf
    simp only [decide_eq_true_eq] at h
    simpa using h

theorem mbind_events_forall {α β : Type} (P : Event → Prop)
    (x : List Event × Except Err α) (f : α → List Event × Except Err β)
    (hx : ∀ e ∈ x.1, P e) (hf : ∀ a, ∀ e ∈ (f a).1, P e) :
    ∀ e ∈ (mbind x f).1, P e := by
  obtain ⟨evs, r⟩ := x
  cases r with
  | error er => exact hx
  | ok a =>
    intro e he
    simp only [mbind, List.mem_append] at he
    rcases he with h | h
    · exact hx e h
    · exact hf a e h

theorem mbind_ok {α β : Type} (x : List Event × Except Err α)
    (f : α → List Event × Except Err β) (b : β) :
    (mbind x f).2 = Except.ok b ↔
      ∃ a, x.2 = Except.ok a ∧ (f a).2 = Except.ok b := by
  obtain ⟨evs, r⟩ := x
  cases r with
  | error e => simp [mbind]
  | ok a => simp [mbind]

theorem mbind_error {α β : Type} (x : List Event × Except Err α)
    (f : α → List Event × Except Err β) (e : Err) :
    (mbind x f).2 = Except.error e ↔
      x.2 = Except.error e ∨ ∃ a, x.2 = Except.ok a ∧ (f a).2 = Except.error e := by
  obtain ⟨evs, r⟩ := x
  cases r with
  | error e0 => simp [mbind]
  | ok a => simp [mbind]

theorem get_resources_events (w : Remote) (rt : String) :
    ∀ (names : List String), ∀ e ∈ (get_resources w rt names).1,
      isResolveEvent e = true := by
  intro names
  induction names with
  | nil => intro e he; simp [get_resources] at he
  | cons n rest ih =>
    intro e he
    rw [get_resources] at he
    cases hs : search_resource w rt n with
    | none =>
      rw [hs] at he
      simp only [List.mem_singleton] at he
      subst he; rfl
    | some x =>
      rw [hs] at he
      rcases hgr : get_resources w rt rest with ⟨evs2, r2⟩
      rw [hgr] at he
      cases r2 with
      | error err =>
        simp only [mbind, List.cons_append, List.nil_append, List.mem_cons] at he
        rcases he with rfl | h
        · rfl
        · exact ih e (by rw [hgr]; exact h)
      | ok l =>
        simp only [mbind, List.cons_append, List.nil_append, List.mem_cons] at he
        rcases he with rfl | h
        · rfl
        · exact ih e (by rw [hgr]; exact h)

theorem get_resources_error (w : Remote) (rt : String) :
    ∀ (names : List String) (e : Err),
      (get_resources w rt names).2 = Except.error e →
      ∃ n ∈ names, e = Err.notFound rt n ∧ search_resource w rt n = none := by
  intro names
  induction names with
  | nil => intro e he; simp [get_resources] at he
  | cons n rest ih =>
    intro e he
    rw [get_resources] at he
    cases hs : search_resource w rt n with
    | none =>
      rw [hs] at he
      simp only [Except.error.injEq] at he
      exact ⟨n, List.mem_cons_self n rest, he.symm, hs⟩
    | some x =>
      rw [hs] at he
      rcases hgr : get_resources w rt rest with ⟨evs2, r2⟩
      rw [hgr] at he
      cases r2 with
      | error err =>
        simp only [mbind] at he
        obtain ⟨n2, hn2, hsh, hnone⟩ := ih e (by rw [hgr]; simpa using he)
        exact ⟨n2, List.mem_cons_of_mem n hn2, hsh, hnone⟩
      | ok l => simp [mbind] at he

theorem get_resources_ok (w : Remote) (rt : String) :
    ∀ (names : List String) (l : List Entity),
      (get_resources w rt names).2 = Except.ok l →
      ∀ n ∈ names, ∃ x, search_resource w rt n = some x := by
  intro names
  induction names with
  | nil => intro l _ n hn; cases hn
  | cons n0 rest ih =>
    intro l he n hn
    rw [get_resources] at he
    cases hs : search_resource w rt n0 with
    | none => rw [hs] at he; simp at he
    | some x =>
      rw [hs] at he
      rcases hgr : get_resources w rt rest with ⟨evs2, r2⟩
      rw [hgr] at he
      cases r2 with
      | error err => simp [mbind] at he
      | ok l2 =>
        rcases List.mem_cons.mp hn with rfl | hmem
        · exact ⟨x, hs⟩
        · exact ih l2 (by rw [hgr]) n hmem

theorem resolveProxy_events (w : Remote) (po : Option String) :
    ∀ e ∈ (resolveProxy w po).1, isResolveEvent e = true := by
  cases po with
  | none => intro e he; simp [resolveProxy] at he
  | some n =>
    intro e he
    rw [resolveProxy] at he
    cases hs : search_resource w "smart_proxies" n with
    | none => rw [hs] at he; simp only [List.mem_singleton] at he; subst he; rfl
    | some x => rw [hs] at he; simp only [List.mem_singleton] at he; subst he; rfl

theorem resolveProxy_error (w : Remote) (po : Option String) (e : Err) :
    (resolveProxy w po).2 = Except.error e →
    ∃ n, po = some n ∧ e = Err.notFound "smart_proxies" n ∧
      search_resource w "smart_proxies" n = none := by
  cases po with
  | none => intro he; simp [resolveProxy] at he
  | some n =>
    intro he
    rw [resolveProxy] at he
    cases hs : search_resource w "smart_proxies" n with
    | none =>
      rw [hs] at he
      simp only [Except.error.injEq] at he
      exact ⟨n, rfl, he.symm, hs⟩
    | some x => rw [hs] at he; simp at he

theorem resolveProxy_ok (w : Remote) (po : Option String) (i : Option Nat) :
    (resolveProxy w po).2 = Except.ok i →
    ∀ n, po = some n → ∃ x, search_resource w "smart_proxies" n = some x := by
  cases po with
  | none => intro _ n hn; cases hn
  | some n0 =>
    intro he n hn
    injection hn with hn
    subst hn
    rw [resolveProxy] at he
    cases hs : search_resource w "smart_proxies" n0 with
    | none => rw [hs] at he; simp at he
    | some x => exact ⟨x, rfl⟩

theorem resolveDomains_events (w : Remote) (od : Option (List String)) :
    ∀ e ∈ (resolveDomains w od).1, isResolveEvent e = true := by
  cases od with
  | none => intro e he; simp [resolveDomains] at he
  | some names =>
    intro e he
    rw [resolveDomains] at he
    by_cases hn : names = []
    · rw [if_pos hn] at he; simp at he
    · rw [if_neg hn] at he
      rcases hgr : get_resources w "domains" names with ⟨evs, r⟩
      rw [hgr] at he
      cases r with
      | error err =>
        exact get_resources_events w "domains" names e (by rw [hgr]; exact he)
      | ok l =>
        exact get_resources_events w "domains" names e (by rw [hgr]; exact he)

theorem resolveDomains_error (w : Remote) (od : Option (List String)) (e : Err)
    (h : (resolveDomains w od).2 = Except.error e) :
    ∃ n, e = Err.notFound "domains" n ∧ search_resource w "domains" n = none := by
  cases od with
  | none => simp [resolveDomains] at h
  | some names =>
    rw [resolveDomains] at h
    by_cases hn : names = []
    · rw [if_pos hn] at h; cases h
    · rw [if_neg hn] at h
      rcases hgr : get_resources w "domains" names with ⟨evs, r⟩
      rw [hgr] at h
      cases r with
      | error err =>
        simp only [Except.error.injEq] at h
        subst h
        obtain ⟨n, _, hsh, hs⟩ := get_resources_error w "domains" names err (by rw [hgr])
        exact ⟨n, hsh, hs⟩
      | ok l => simp at h

theorem resolveDomains_ok (w : Remote) (od : Option (List String))
    (dv : Option (List Entity))
    (h : (resolveDomains w od).2 = Except.ok dv) :
    ∀ names, od = some names →
      ∀ n ∈ names, ∃ x, search_resource w "domains" n = some x := by
  cases od with
  | none => intro names hn; cases hn
  | some names0 =>
    intro names hn
    injection hn with hn
    subst hn
    rw [resolveDomains] at h
    by_cases hc : names0 = []
    · subst hc; intro n hn2; cases hn2
    · rw [if_neg hc] at h
      rcases hgr : get_resources w "domains" names0 with ⟨evs, r⟩
      rw [hgr] at h
      cases r with
      | error err => simp at h
      | ok l => exact get_resources_ok w "domains" names0 l (by rw [hgr])

theorem ite_assoc_events (w : Remote) (rt : String) (names : List String)
    (c : Prop) [Decidable c] :
    ∀ e ∈ (if c then get_resources w rt names else ([], Except.ok [])).1,
      isResolveEvent e = true := by
  split
  · exact get_resources_events w rt names
  · intro e he; simp at he

theorem prepare_events_resolve (p : Params) (w : Remote) :
    ∀ e ∈ (prepareOutcome p w).1, isResolveEvent e = true := by
  unfold prepareOutcome
  refine mbind_events_forall _ _ _ (ite_assoc_events w "organizations" p.organizations _)
    (fun orgs => ?_)
  refine mbind_events_forall _ _ _ (ite_assoc_events w "locations" p.locations _)
    (fun locs => ?_)
  refine mbind_events_forall _ _ _ (resolveDomains_events w p.domains)
    (fun doms => ?_)
  refine mbind_events_forall _ _ _ (resolveProxy_events w p.dns_proxy) (fun a => ?_)
  refine mbind_events_forall _ _ _ (resolveProxy_events w p.dhcp_proxy) (fun b => ?_)
  refine mbind_events_forall _ _ _ (resolveProxy_events w p.tftp_proxy) (fun c => ?_)
  refine mbind_events_forall _ _ _ (resolveProxy_events w p.discovery_proxy) (fun d => ?_)
  intro e he
  simp at he

theorem ite_assoc_error (w : Remote) (rt : String) (names : List String)
    (c : Prop) [Decidable c] (e : Err)
    (h : (if c then get_resources w rt names else ([], Except.ok [])).2
      = Except.error e) :
    ∃ n, e = Err.notFound rt n ∧ search_resource w rt n = none := by
  rcases (em c) with hc | hc
  · rw [if_pos hc] at h
    obtain ⟨n, _, hsh, hs⟩ := get_resources_error w rt names e h
    exact ⟨n, hsh, hs⟩
  · rw [if_neg hc] at h
    cases h

theorem prepare_error (p : Params) (w : Remote) (e : Err)
    (h : (prepareOutcome p w).2 = Except.error e) :
    ∃ rt n, e = Err.notFound rt n ∧ search_resource w rt n = none := by
  unfold prepareOutcome at h
  rcases (mbind_error _ _ _).mp h with h1 | ⟨orgs, _, h1⟩
  · obtain ⟨n, hsh, hs⟩ := ite_assoc_error w "organizations" p.organizations _ e h1
    exact ⟨"organizations", n, hsh, hs⟩
  rcases (mbind_error _ _ _).mp h1 with h2 | ⟨locs, _, h2⟩
  · obtain ⟨n, hsh, hs⟩ := ite_assoc_error w "locations" p.locations _ e h2
    exact ⟨"locations", n, hsh, hs⟩
  rcases (mbind_error _ _ _).mp h2 with h3 | ⟨doms, _, h3⟩
  · obtain ⟨n, hsh, hs⟩ := resolveDomains_error w p.domains e h3
    exact ⟨"domains", n, hsh, hs⟩
  rcases (mbind_error _ _ _).mp h3 with h4 | ⟨a, _, h4⟩
  · obtain ⟨n, _, hsh, hs⟩ := resolveProxy_error w p.dns_proxy e h4
    exact ⟨"smart_proxies", n, hsh, hs⟩
  rcases (mbind_error _ _ _).mp h4 with h5 | ⟨b, _, h5⟩
  · obtain ⟨n, _, hsh, hs⟩ := resolveProxy_error w p.dhcp_proxy e h5
    exact ⟨"smart_proxies", n, hsh, hs⟩
  rcases (mbind_error _ _ _).mp h5 with h6 | ⟨c, _, h6⟩
  · obtain ⟨n, _, hsh, hs⟩ := resolveProxy_error w p.tftp_proxy e h6
    exact ⟨"smart_proxies", n, hsh, hs⟩
  rcases (mbind_error _ _ _).mp h6 with h7 | ⟨d, _, h7⟩
  · obtain ⟨n, _, hsh, hs⟩ := resolveProxy_error w p.discovery_proxy e h7
    exact ⟨"smart_proxies", n, hsh, hs⟩
  cases h7

theorem ite_assoc_ok (w : Remote) (rt : String) (names : List String)
    (l : List Entity)
    (h : (if names ≠ [] then get_resources w rt names else ([], Except.ok [])).2
      = Except.ok l) :
    ∀ n ∈ names, ∃ x, search_resource w rt n = some x := by
  by_cases hc : names = []
  · subst hc; intro n hn; cases hn
  · rw [if_pos hc] at h
    exact get_resources_ok w rt names l h

theorem prepare_ok_all_resolve (p : Params) (w : Remote) (d : Record)
    (h : (prepareOutcome p w).2 = Except.ok d) :
    (∀ n ∈ p.organizations, ∃ x, search_resource w "organizations" n = some x) ∧
    (∀ n ∈ p.locations, ∃ x, search_resource w "locations" n = some x) ∧
    (∀ names, p.domains = some names →
      ∀ n ∈ names, ∃ x, search_resource w "domains" n = some x) ∧
    (∀ n, (p.dns_proxy = some n ∨ p.dhcp_proxy = some n ∨ p.tftp_proxy = some n ∨
           p.discovery_proxy = some n) →
      ∃ x, search_resource w "smart_proxies" n = some x) := by
  unfold prepareOutcome at h
  obtain ⟨orgs, ho, h⟩ := (mbind_ok _ _ _).mp h
  obtain ⟨locs, hl, h⟩ := (mbind_ok _ _ _).mp h
  obtain ⟨doms, hd, h⟩ := (mbind_ok _ _ _).mp h
  obtain ⟨a, ha, h⟩ := (mbind_ok _ _ _).mp h
  obtain ⟨b, hb, h⟩ := (mbind_ok _ _ _).mp h
  obtain ⟨c, hc, h⟩ := (mbind_ok _ _ _).mp h
  obtain ⟨dd, hdd, h⟩ := (mbind_ok _ _ _).mp h
  refine ⟨ite_assoc_ok w "organizations" p.organizations orgs ho,
          ite_assoc_ok w "locations" p.locations locs hl,
          resolveDomains_ok w p.domains doms hd, ?_⟩
  intro n hn
  rcases hn with hn | hn | hn | hn
  · exact resolveProxy_ok w p.dns_proxy a ha n hn
  · exact resolveProxy_ok w p.dhcp_proxy b hb n hn
  · exact resolveProxy_ok w p.tftp_proxy c hc n hn
  · exact resolveProxy_ok w p.discovery_proxy dd hdd n hn

theorem prepare_broken_error (p : Params) (w : Remote) (hb : RefsBroken p w) :
    ∃ e, (prepareOutcome p w).2 = Except.error e := by
  cases hpo : (prepareOutcome p w).2 with
  | error e => exact ⟨e, rfl⟩
  | ok d =>
    exfalso
    obtain ⟨h1, h2, h3, h4⟩ := prepare_ok_all_resolve p w d hpo
    rcases hb with ⟨n, hn, hs⟩ | ⟨n, hn, hs⟩ | ⟨names, hnames, n, hn, hs⟩ |
      ⟨n, hn, hs⟩
    · obtain ⟨x, hx⟩ := h1 n hn; rw [hx] at hs; cases hs
    · obtain ⟨x, hx⟩ := h2 n hn; rw [hx] at hs; cases hs
    · obtain ⟨x, hx⟩ := h3 names hnames n hn; rw [hx] at hs; cases hs
    · obtain ⟨x, hx⟩ := h4 n hn; rw [hx] at hs; cases hs

/-! ## Branch characterizations of `ensure` -/

theorem ensure_create (p : Params) (w : Remote) (evs : List Event) (d : Record)
    (h1 : search_subnet w p.name = none) (h2 : p.state = "present")
    (h3 : prepareOutcome p w = (evs, Except.ok d)) :
    ensure p w = ⟨[Event.searchSubnet p.name] ++ evs ++ [Event.createSubnet],
      Except.ok (true, some d),
      { w with subnets := w.subnets ++ [⟨w.nextId, d⟩], nextId := w.nextId + 1 }⟩ := by
  simp [ensure, h1, h2, h3, create_subnet]

theorem ensure_noop_absent (p : Params) (w : Remote) (evs : List Event) (d : Record)
    (h1 : search_subnet w p.name = none) (h2 : p.state ≠ "present")
    (h3 : prepareOutcome p w = (evs, Except.ok d)) :
    ensure p w = ⟨[Event.searchSubnet p.name] ++ evs,
      Except.ok (false, none), w⟩ := by
  simp [ensure, h1, h2, h3]

theorem ensure_delete (p : Params) (w : Remote) (evs : List Event) (d : Record)
    (s0 : Stored)
    (h1 : search_subnet w p.name = some s0) (h2 : p.state = "absent")
    (h3 : prepareOutcome p w = (evs, Except.ok d)) :
    ensure p w = ⟨[Event.searchSubnet p.name, Event.getSubnet s0.id] ++ evs
        ++ [Event.deleteSubnet (fetched w s0).id],
      Except.ok (true, ((delete_subnet w (fetched w s0).id).1.map Stored.record)),
      (delete_subnet w (fetched w s0).id).2⟩ := by
  simp [ensure, h1, h2, h3, fetched]

theorem ensure_noop_equal (p : Params) (w : Remote) (evs : List Event) (d : Record)
    (s0 : Stored)
    (h1 : search_subnet w p.name = some s0) (h2 : p.state ≠ "absent")
    (h3 : prepareOutcome p w = (evs, Except.ok d))
    (h4 : subnets_equal d (fetched w s0).record = some true) :
    ensure p w = ⟨[Event.searchSubnet p.name, Event.getSubnet s0.id] ++ evs,
      Except.ok (false, some (fetched w s0).record), w⟩ := by
  simp [ensure, h1, h2, h3, fetched] at h4 ⊢
  simp [h4]

theorem ensure_update (p : Params) (w : Remote) (evs : List Event) (d : Record)
    (s0 : Stored)
    (h1 : search_subnet w p.name = some s0) (h2 : p.state ≠ "absent")
    (h3 : prepareOutcome p w = (evs, Except.ok d))
    (h4 : subnets_equal d (fetched w s0).record = some false) :
    ensure p w = ⟨[Event.searchSubnet p.name, Event.getSubnet s0.id] ++ evs
        ++ [Event.updateSubnet (fetched w s0).id],
      Except.ok (true, some d),
      { w with subnets := w.subnets.map fun s =>
          if s.id = (fetched w s0).id then ⟨s.id, d⟩ else s }⟩ := by
  simp [ensure, h1, h2, h3, fetched, update_subnet] at h4 ⊢
  simp [h4]

theorem ensure_crash (p : Params) (w : Remote) (evs : List Event) (d : Record)
    (s0 : Stored)
    (h1 : search_subnet w p.name = some s0) (h2 : p.state ≠ "absent")
    (h3 : prepareOutcome p w = (evs, Except.ok d))
    (h4 : subnets_equal d (fetched w s0).record = none) :
    ensure p w = ⟨[Event.searchSubnet p.name, Event.getSubnet s0.id] ++ evs,
      Except.error Err.typeError, w⟩ := by
  simp [ensure, h1, h2, h3, fetched] at h4 ⊢
  simp [h4]

theorem ensure_error_none (p : Params) (w : Remote) (evs : List Event) (e : Err)
    (h1 : search_subnet w p.name = none)
    (h3 : prepareOutcome p w = (evs, Except.error e)) :
    ensure p w = ⟨[Event.searchSubnet p.name] ++ evs, Except.error e, w⟩ := by
  simp [ensure, h1, h3]

theorem ensure_error_some (p : Params) (w : Remote) (evs : List Event) (e : Err)
    (s0 : Stored)
    (h1 : search_subnet w p.name = some s0)
    (h3 : prepareOutcome p w = (evs, Except.error e)) :
    ensure p w = ⟨[Event.searchSubnet p.name, Event.getSubnet s0.id] ++ evs,
      Except.error e, w⟩ := by
  simp [ensure, h1, h3]

/-! ## Lemmas about the equality check -/

theorem list_all_congr {α : Type} (p q : α → Bool) :
    ∀ (l : List α), (∀ x ∈ l, p x = q x) → l.all p = l.all q := by
  intro l
  induction l with
  | nil => intro _; rfl
  | cons a as ih =>
    intro h
    simp only [List.all_cons]
    rw [h a (List.mem_cons_self a as), ih fun x hx => h x (List.mem_cons_of_mem a hx)]

theorem subnets_equal_false_of_ne (d s : Record) (k : String)
    (hk : k ∈ comparable_keys) (hne : d.fields k ≠ s.fields k) :
    subnets_equal d s = some false := by
  cases hall : (comparable_keys.all fun key => decide (d.fields key = s.fields key)) with
  | false => simp [subnets_equal, hall]
  | true =>
    exfalso
    have := List.all_eq_true.mp hall k hk
    simp only [decide_eq_true_eq] at this
    exact hne this

theorem subnets_equal_congr (d s d2 s2 : Record)
    (hd : ∀ k ∈ comparable_keys, d2.fields k = d.fields k)
    (hs : ∀ k ∈ comparable_keys, s2.fields k = s.fields k)
    (hdd : d2.domains = d.domains) (hdo : d2.organizations = d.organizations)
    (hdl : d2.locations = d.locations)
    (hsd : s2.domains = s.domains) (hso : s2.organizations = s.organizations)
    (hsl : s2.locations = s.locations) :
    subnets_equal d2 s2 = subnets_equal d s := by
  have hall : (comparable_keys.all fun key => decide (d2.fields key = s2.fields key))
      = (comparable_keys.all fun key => decide (d.fields key = s.fields key)) := by
    apply list_all_congr
    intro k hk
    rw [hd k hk, hs k hk]
  have hde : domains_equal d2 s2 = domains_equal d s := by
    simp only [domains_equal, hdd, hsd]
  simp only [subnets_equal, hall, hde, organizations_equal,
    locations_equal, hdo, hso, hdl, hsl]

/-! ## Congruence of resolution in worlds with the same entity tables -/

theorem resourceList_congr (w2 w : Remote) (h1 : w2.domains = w.domains)
    (h2 : w2.smart_proxies = w.smart_proxies)
    (h3 : w2.organizations = w.organizations)
    (h4 : w2.locations = w.locations) (rt : String) :
    resourceList w2 rt = resourceList w rt := by
  unfold resourceList
  split_ifs <;> first | exact h1 | exact h2 | exact h3 | exact h4 | rfl

theorem search_resource_congr (w2 w : Remote) (h1 : w2.domains = w.domains)
    (h2 : w2.smart_proxies = w.smart_proxies)
    (h3 : w2.organizations = w.organizations)
    (h4 : w2.locations = w.locations) (rt n : String) :
    search_resource w2 rt n = search_resource w rt n := by
  unfold search_resource
  rw [resourceList_congr w2 w h1 h2 h3 h4 rt]

theorem get_resources_congr (w2 w : Remote) (h1 : w2.domains = w.domains)
    (h2 : w2.smart_proxies = w.smart_proxies)
    (h3 : w2.organizations = w.organizations)
    (h4 : w2.locations = w.locations) (rt : String) :
    ∀ names, get_resources w2 rt names = get_resources w rt names := by
  intro names
  induction names with
  | nil => rfl
  | cons n rest ih =>
    simp only [get_resources, search_resource_congr w2 w h1 h2 h3 h4, ih]

theorem resolveProxy_congr (w2 w : Remote) (h1 : w2.domains = w.domains)
    (h2 : w2.smart_proxies = w.smart_proxies)
    (h3 : w2.organizations = w.organizations)
    (h4 : w2.locations = w.locations) :
    ∀ po, resolveProxy w2 po = resolveProxy w po := by
  intro po
  cases po with
  | none => rfl
  | some n =>
    simp only [resolveProxy, search_resource_congr w2 w h1 h2 h3 h4]

theorem resolveDomains_congr (w2 w : Remote) (h1 : w2.domains = w.domains)
    (h2 : w2.smart_proxies = w.smart_proxies)
    (h3 : w2.organizations = w.organizations)
    (h4 : w2.locations = w.locations) :
    ∀ od, resolveDomains w2 od = resolveDomains w od := by
  intro od
  cases od with
  | none => rfl
  | some names =>
    simp only [resolveDomains, get_resources_congr w2 w h1 h2 h3 h4]

theorem prepareOutcome_congr (p : Params) (w2 w : Remote)
    (h1 : w2.domains = w.domains) (h2 : w2.smart_proxies = w.smart_proxies)
    (h3 : w2.organizations = w.organizations)
    (h4 : w2.locations = w.locations) :
    prepareOutcome p w2 = prepareOutcome p w := by
  unfold prepareOutcome
  simp only [get_resources_congr w2 w h1 h2 h3 h4,
    resolveDomains_congr w2 w h1 h2 h3 h4,
    resolveProxy_congr w2 w h1 h2 h3 h4]

theorem ensure_world_entities (p : Params) (w : Remote) :
    ((ensure p w).world.domains = w.domains) ∧
    ((ensure p w).world.smart_proxies = w.smart_proxies) ∧
    ((ensure p w).world.organizations = w.organizations) ∧
    ((ensure p w).world.locations = w.locations) := by
  rcases hpo : prepareOutcome p w with ⟨evs, r⟩
  cases hs : search_subnet w p.name with
  | none =>
    cases r with
    | error e => simp [ensure_error_none p w evs e hs hpo]
    | ok d =>
      by_cases hp : p.state = "present"
      · simp [ensure_create p w evs d hs hp hpo]
      · simp [ensure_noop_absent p w evs d hs hp hpo]
  | some s0 =>
    cases r with
    | error e => simp [ensure_error_some p w evs e s0 hs hpo]
    | ok d =>
      by_cases ha : p.state = "absent"
      · simp [ensure_delete p w evs d s0 hs ha hpo, delete_subnet]
      · cases hq : subnets_equal d (fetched w s0).record with
        | none => simp [ensure_crash p w evs d s0 hs ha hpo hq]
        | some b =>
          cases b with
          | true => simp [ensure_noop_equal p w evs d s0 hs ha hpo hq]
          | false => simp [ensure_update p w evs d s0 hs ha hpo hq]

theorem prepare_events_not_mutating (p : Params) (w : Remote) :
    ∀ e ∈ (prepareOutcome p w).1, isMutating e = false := by
  intro e he
  have h := prepare_events_resolve p w e he
  cases e <;> simp_all [isResolveEvent, isMutating]

theorem prepare_events_not_fetch (p : Params) (w : Remote) :
    ∀ e ∈ (prepareOutcome p w).1, isFetchEvent e = false := by
  intro e he
  have h := prepare_events_resolve p w e he
  cases e <;> simp_all [isResolveEvent, isFetchEvent]

theorem prepare_filter_mutating_nil (p : Params) (w : Remote) (evs : List Event)
    (h : (prepareOutcome p w).1 = evs) : evs.filter isMutating = [] := by
  apply List.filter_eq_nil_iff.mpr
  intro a ha
  simp [prepare_events_not_mutating p w a (h ▸ ha)]

/-- C9: the equality check compares exactly the fixed scalar key set by
exact value equality — it returns false whenever any compared field differs,
and no field outside this fixed set plus the three association lists
influences the result. -/
theorem C9_subnets_equal_fixed_fields (data subnet d2 s2 : Record) :
    (∀ k ∈ comparable_keys, data.fields k ≠ subnet.fields k →
      subnets_equal data subnet = some false) ∧
    ((∀ k ∈ comparable_keys, d2.fields k = data.fields k) →
     (∀ k ∈ comparable_keys, s2.fields k = subnet.fields k) →
     d2.domains = data.domains → d2.organizations = data.organizations →
     d2.locations = data.locations → s2.domains = subnet.domains →
     s2.organizations = subnet.organizations →
     s2.locations = subnet.locations →
     subnets_equal d2 s2 = subnets_equal data subnet) := by
  constructor
  · intro k hk hne
    exact subnets_equal_false_of_ne data subnet k hk hne
  · intro hd hs h1 h2 h3 h4 h5 h6
    exact subnets_equal_congr data subnet d2 s2 hd hs h1 h2 h3 h4 h5 h6

/-- Witness for C9: records differing on `mask` compare unequal, and adding
an entry outside the compared key set does not change the verdict. -/
theorem C9_subnets_equal_fixed_fields_witness :
    subnets_equal recMaskA recMaskB = some false ∧
    subnets_equal recMaskAJunk recMaskB = subnets_equal recMaskA recMaskB := by
  constructor
  · exact (C9_subnets_equal_fixed_fields recMaskA recMaskB recMaskAJunk recMaskB).1
      "mask" (by decide) (by decide)
  · exact (C9_subnets_equal_fixed_fields recMaskA recMaskB recMaskAJunk recMaskB).2
      (by decide) (by decide) rfl rfl rfl rfl rfl rfl

/-- C2: when no remote subnet carries the desired name and the desired state
is present, a successful run issues exactly one mutating call — a create —
and returns changed=true together with the newly created record, which is
appended to the remote subnet table under the fresh id. -/
theorem C2_create_when_missing (p : Params) (w : Remote) (c : Bool)
    (r : Option Record)
    (h1 : search_subnet w p.name = none) (h2 : p.state = "present")
    (h3 : (ensure p w).outcome = Except.ok (c, r)) :
    c = true ∧ mutatingEvents (ensure p w).events = [Event.createSubnet] ∧
    ∃ d, (prepareOutcome p w).2 = Except.ok d ∧ r = some d ∧
      (ensure p w).world.subnets = w.subnets ++ [⟨w.nextId, d⟩] := by
  rcases hpo : prepareOutcome p w with ⟨evs, rr⟩
  cases rr with
  | error e =>
    rw [ensure_error_none p w evs e h1 hpo] at h3
    cases h3
  | ok d =>
    have hE := ensure_create p w evs d h1 h2 hpo
    rw [hE] at h3
    simp only [Except.ok.injEq, Prod.mk.injEq] at h3
    obtain ⟨hc, hr⟩ := h3
    have hfil : evs.filter isMutating = [] :=
      prepare_filter_mutating_nil p w evs (by rw [hpo])
    refine ⟨hc.symm, ?_, d, rfl, hr.symm, by rw [hE]⟩
    rw [hE]
    simp [mutatingEvents, List.filter_append, hfil, isMutating]

/-- Witness for C2: a concrete present-state run against an empty remote
creates `MySubnet`. -/
theorem C2_create_when_missing_witness :
    true = true ∧
    mutatingEvents (ensure pCreate wEmpty).events = [Event.createSubnet] ∧
    ∃ d, (prepareOutcome pCreate wEmpty).2 = Except.ok d ∧
      some dCreate = some d ∧
      (ensure pCreate wEmpty).world.subnets
        = wEmpty.subnets ++ [⟨wEmpty.nextId, d⟩] :=
  C2_create_when_missing pCreate wEmpty true (some dCreate) rfl rfl rfl

/-- C3: when a remote subnet carries the desired name and the desired state
is absent, a successful run issues exactly one mutating call — a delete on
that subnet's id — and returns changed=true together with the deleted
record; the record disappears from the remote subnet table. -/
theorem C3_delete_when_absent (p : Params) (w : Remote) (c : Bool)
    (r : Option Record) (s0 : Stored)
    (h1 : search_subnet w p.name = some s0) (h2 : p.state = "absent")
    (h3 : (ensure p w).outcome = Except.ok (c, r)) :
    c = true ∧ mutatingEvents (ensure p w).events = [Event.deleteSubnet s0.id] ∧
    r = (delete_subnet w s0.id).1.map Stored.record ∧
    (ensure p w).world.subnets
      = w.subnets.filter fun x => decide (¬ x.id = s0.id) := by
  rcases hpo : prepareOutcome p w with ⟨evs, rr⟩
  cases rr with
  | error e =>
    rw [ensure_error_some p w evs e s0 h1 hpo] at h3
    cases h3
  | ok d =>
    have hid := fetched_id w s0
    have hE := ensure_delete p w evs d s0 h1 h2 hpo
    rw [hid] at hE
    rw [hE] at h3
    simp only [Except.ok.injEq, Prod.mk.injEq] at h3
    obtain ⟨hc, hr⟩ := h3
    have hfil : evs.filter isMutating = [] :=
      prepare_filter_mutating_nil p w evs (by rw [hpo])
    refine ⟨hc.symm, ?_, hr.symm, by rw [hE]; simp [delete_subnet]⟩
    rw [hE]
    simp [mutatingEvents, List.filter_append, hfil, isMutating]

/-- Witness for C3: a concrete absent-state run against a remote holding
`MySubnet` deletes it. -/
theorem C3_delete_when_absent_witness :
    true = true ∧
    mutatingEvents (ensure pAbsent wExisting).events
      = [Event.deleteSubnet sExisting.id] ∧
    some sExisting.record
      = (delete_subnet wExisting sExisting.id).1.map Stored.record ∧
    (ensure pAbsent wExisting).world.subnets
      = wExisting.subnets.filter fun x => decide (¬ x.id = sExisting.id) :=
  C3_delete_when_absent pAbsent wExisting true (some sExisting.record) sExisting
    rfl rfl rfl

/-- C10: the decision table's implicit fourth cell — no remote subnet with
the desired name and desired state absent: a successful run issues no
mutating call and returns changed=false with a null record, leaving the
remote state untouched. -/
theorem C10_absent_missing_noop (p : Params) (w : Remote) (c : Bool)
    (r : Option Record)
    (h1 : search_subnet w p.name = none) (h2 : p.state = "absent")
    (h3 : (ensure p w).outcome = Except.ok (c, r)) :
    c = false ∧ r = none ∧ mutatingEvents (ensure p w).events = [] ∧
    (ensure p w).world = w := by
  have h2p : p.state ≠ "present" := by rw [h2]; decide
  rcases hpo : prepareOutcome p w with ⟨evs, rr⟩
  cases rr with
  | error e =>
    rw [ensure_error_none p w evs e h1 hpo] at h3
    cases h3
  | ok d =>
    have hE := ensure_noop_absent p w evs d h1 h2p hpo
    rw [hE] at h3
    simp only [Except.ok.injEq, Prod.mk.injEq] at h3
    obtain ⟨hc, hr⟩ := h3
    have hfil : evs.filter isMutating = [] :=
      prepare_filter_mutating_nil p w evs (by rw [hpo])
    refine ⟨hc.symm, hr.symm, ?_, by rw [hE]⟩
    rw [hE]
    simp [mutatingEvents, List.filter_append, hfil, isMutating]

/-- Witness for C10: a concrete absent-state run against an empty remote
changes nothing. -/
theorem C10_absent_missing_noop_witness :
    false = false ∧ (none : Option Record) = none ∧
    mutatingEvents (ensure pAbsent wEmpty).events = [] ∧
    (ensure pAbsent wEmpty).world = wEmpty :=
  C10_absent_missing_noop pAbsent wEmpty false none rfl rfl rfl

/-- C4: the claim's dichotomy — equal records give a no-op with
changed=false, differing records give exactly one update with changed=true —
fails on the code.  With the `domains` parameter omitted (its documented
default `None`), `prepare_data` copies `None` into the data dict (line 219;
the truthiness test at line 224 skips resolution), and when a same-named
remote subnet agrees with the prepared data on all fifteen compared scalar
fields, the `all(...)` check passes and `subnets_equal` reaches
`domains_equal`, where `list(map(lambda d: d['name'], None))` raises an
uncaught TypeError: the run crashes instead of reporting changed=false, and
never updates.  Evaluation at the failing input: desired state `pCreate`
(domains omitted) against `wConverged`, whose subnet agrees with the
prepared data `dCreate` on every compared scalar field. -/
theorem C4_converged_compare_crashes :
    search_subnet wConverged pCreate.name = some sConverged ∧
    pCreate.state = "present" ∧
    (prepareOutcome pCreate wConverged).2 = Except.ok dCreate ∧
    (comparable_keys.all fun k =>
      decide (dCreate.fields k
        = (fetched wConverged sConverged).record.fields k)) = true ∧
    subnets_equal dCreate (fetched wConverged sConverged).record = none ∧
    (ensure pCreate wConverged).outcome = Except.error Err.typeError ∧
    mutatingEvents (ensure pCreate wConverged).events = [] := by
  refine ⟨rfl, rfl, rfl, by decide, rfl, rfl, rfl⟩

/-- C5: when some named reference (organization, location, domain, or
dns/dhcp/tftp/discovery proxy) has no remote match, the run terminates with
a resource-not-found error carrying the resource type and the offending
name, no mutating call is issued, and the remote state is unchanged. -/
theorem C5_reference_not_found_aborts (p : Params) (w : Remote)
    (hb : RefsBroken p w) :
    ∃ rt n, (ensure p w).outcome = Except.error (Err.notFound rt n) ∧
      search_resource w rt n = none ∧
      mutatingEvents (ensure p w).events = [] ∧ (ensure p w).world = w := by
  rcases hpo : prepareOutcome p w with ⟨evs, rr⟩
  obtain ⟨e, he⟩ := prepare_broken_error p w hb
  rw [hpo] at he
  have hrr : rr = Except.error e := he
  subst hrr
  obtain ⟨rt, n, hshape, hsearch⟩ := prepare_error p w e (by rw [hpo])
  subst hshape
  have hfil : evs.filter isMutating = [] :=
    prepare_filter_mutating_nil p w evs (by rw [hpo])
  cases hs : search_subnet w p.name with
  | none =>
    have hE := ensure_error_none p w evs (Err.notFound rt n) hs hpo
    refine ⟨rt, n, by rw [hE], hsearch, ?_, by rw [hE]⟩
    rw [hE]
    simp [mutatingEvents, List.filter_append, hfil, isMutating]
  | some s0 =>
    have hE := ensure_error_some p w evs (Err.notFound rt n) s0 hs hpo
    refine ⟨rt, n, by rw [hE], hsearch, ?_, by rw [hE]⟩
    rw [hE]
    simp [mutatingEvents, List.filter_append, hfil, isMutating]

/-- Witness for C5: a desired dns proxy name with no remote smart proxy
aborts the run without mutation. -/
theorem C5_reference_not_found_aborts_witness :
    ∃ rt n, (ensure pProxy wEmpty).outcome = Except.error (Err.notFound rt n) ∧
      search_resource wEmpty rt n = none ∧
      mutatingEvents (ensure pProxy wEmpty).events = [] ∧
      (ensure pProxy wEmpty).world = wEmpty :=
  C5_reference_not_found_aborts pProxy wEmpty
    (Or.inr (Or.inr (Or.inr ⟨"proxy.example.com", Or.inl rfl, rfl⟩)))

theorem fetchPrecedes_cons_not_resolve (e : Event) (l : List Event)
    (h : isResolveEvent e = false) :
    fetchPrecedesResolution (e :: l) = fetchPrecedesResolution l := by
  rw [fetchPrecedesResolution, if_neg (by simp [h])]

theorem fetchPrecedes_cons_search (n : String) (l : List Event) :
    fetchPrecedesResolution (Event.searchSubnet n :: l)
      = fetchPrecedesResolution l :=
  fetchPrecedes_cons_not_resolve (Event.searchSubnet n) l rfl

theorem fetchPrecedes_cons_get (i : Nat) (l : List Event) :
    fetchPrecedesResolution (Event.getSubnet i :: l)
      = fetchPrecedesResolution l :=
  fetchPrecedes_cons_not_resolve (Event.getSubnet i) l rfl

theorem fetchPrecedes_of_no_fetch (l : List Event)
    (h : ∀ e ∈ l, isFetchEvent e = false) :
    fetchPrecedesResolution l = true := by
  induction l with
  | nil => rfl
  | cons a as ih =>
    rw [fetchPrecedesResolution]
    by_cases hr : isResolveEvent a = true
    · rw [if_pos (by simp [hr])]
      apply List.all_eq_true.mpr
      intro x hx
      simp [h x (List.mem_cons_of_mem a hx)]
    · rw [if_neg (by simpa using hr)]
      exact ih fun e he => h e (List.mem_cons_of_mem a he)

/-- C6 counterexample: the claim says every run resolves all named
cross-references before fetching the remote subnet by name.  In the code
`ensure` calls `search_subnet` first (line 250) and resolves organizations,
locations, domains and proxies afterwards (lines 256-262), so on a desired
state listing one organization the trace has a resolution lookup after the
fetch. -/
theorem C6_resolution_before_fetch_counterexample :
    resolutionPrecedesFetch (ensure pOrg wOrg).events = false := by
  decide

/-- C6 amended: in every run the fetch of the remote subnet by name comes
first, and every cross-reference resolution lookup happens after it (and
before the mutating call, which the trace never precedes). -/
theorem C6_fetch_precedes_resolution (p : Params) (w : Remote) :
    fetchPrecedesResolution (ensure p w).events = true := by
  have hprep : ∀ e ∈ (prepareOutcome p w).1, isFetchEvent e = false :=
    prepare_events_not_fetch p w
  rcases hpo : prepareOutcome p w with ⟨evs, rr⟩
  have hevs : ∀ e ∈ evs, isFetchEvent e = false := by
    intro e he
    exact hprep e (by rw [hpo]; exact he)
  cases hs : search_subnet w p.name with
  | none =>
    cases rr with
    | error e =>
      rw [ensure_error_none p w evs e hs hpo]
      rw [List.singleton_append, fetchPrecedes_cons_search]
      exact fetchPrecedes_of_no_fetch evs hevs
    | ok d =>
      by_cases hp : p.state = "present"
      · rw [ensure_create p w evs d hs hp hpo]
        simp only [List.singleton_append, List.cons_append]
        rw [fetchPrecedes_cons_search]
        apply fetchPrecedes_of_no_fetch
        intro e he
        rcases List.mem_append.mp he with h | h
        · exact hevs e h
        · simp only [List.mem_singleton] at h
          subst h; rfl
      · rw [ensure_noop_absent p w evs d hs hp hpo]
        rw [List.singleton_append, fetchPrecedes_cons_search]
        exact fetchPrecedes_of_no_fetch evs hevs
  | some s0 =>
    cases rr with
    | error e =>
      rw [ensure_error_some p w evs e s0 hs hpo]
      simp only [List.cons_append, List.nil_append]
      rw [fetchPrecedes_cons_search, fetchPrecedes_cons_get]
      exact fetchPrecedes_of_no_fetch evs hevs
    | ok d =>
      by_cases ha : p.state = "absent"
      · rw [ensure_delete p w evs d s0 hs ha hpo]
        simp only [List.cons_append, List.nil_append]
        rw [fetchPrecedes_cons_search, fetchPrecedes_cons_get]
        apply fetchPrecedes_of_no_fetch
        intro e he
        rcases List.mem_append.mp he with h | h
        · exact hevs e h
        · simp only [List.mem_singleton] at h
          subst h; rfl
      · cases hq : subnets_equal d (fetched w s0).record with
        | none =>
          rw [ensure_crash p w evs d s0 hs ha hpo hq]
          simp only [List.cons_append, List.nil_append]
          rw [fetchPrecedes_cons_search, fetchPrecedes_cons_get]
          exact fetchPrecedes_of_no_fetch evs hevs
        | some b =>
         cases b with
         | true =>
          rw [ensure_noop_equal p w evs d s0 hs ha hpo hq]
          simp only [List.cons_append, List.nil_append]
          rw [fetchPrecedes_cons_search, fetchPrecedes_cons_get]
          exact fetchPrecedes_of_no_fetch evs hevs
         | false =>
          rw [ensure_update p w evs d s0 hs ha hpo hq]
          simp only [List.cons_append, List.nil_append]
          rw [fetchPrecedes_cons_search, fetchPrecedes_cons_get]
          apply fetchPrecedes_of_no_fetch
          intro e he
          rcases List.mem_append.mp he with h | h
          · exact hevs e h
          · simp only [List.mem_singleton] at h
            subst h; rfl

/-- C8: every run issues at most one mutating call, all read calls precede
it, and the run ends right after it: the trace splits into non-mutating
reads followed by at most one mutating event. -/
theorem C8_at_most_one_mutation (p : Params) (w : Remote) :
    ∃ reads muts, (ensure p w).events = reads ++ muts ∧
      (∀ e ∈ reads, isMutating e = false) ∧ muts.length ≤ 1 := by
  have hprep : ∀ e ∈ (prepareOutcome p w).1, isMutating e = false :=
    prepare_events_not_mutating p w
  rcases hpo : prepareOutcome p w with ⟨evs, rr⟩
  have hevs : ∀ e ∈ evs, isMutating e = false := by
    intro e he
    exact hprep e (by rw [hpo]; exact he)
  have hreads1 : ∀ e ∈ [Event.searchSubnet p.name] ++ evs,
      isMutating e = false := by
    intro e he
    rcases List.mem_append.mp he with h | h
    · simp only [List.mem_singleton] at h; subst h; rfl
    · exact hevs e h
  cases hs : search_subnet w p.name with
  | none =>
    cases rr with
    | error e =>
      exact ⟨[Event.searchSubnet p.name] ++ evs, [],
        by rw [ensure_error_none p w evs e hs hpo] <;> simp, hreads1, by simp⟩
    | ok d =>
      by_cases hp : p.state = "present"
      · exact ⟨[Event.searchSubnet p.name] ++ evs, [Event.createSubnet],
          by rw [ensure_create p w evs d hs hp hpo] <;> simp, hreads1, by simp⟩
      · exact ⟨[Event.searchSubnet p.name] ++ evs, [],
          by rw [ensure_noop_absent p w evs d hs hp hpo] <;> simp, hreads1, by simp⟩
  | some s0 =>
    have hreads2 : ∀ e ∈ [Event.searchSubnet p.name, Event.getSubnet s0.id] ++ evs,
        isMutating e = false := by
      intro e he
      rcases List.mem_append.mp he with h | h
      · rcases List.mem_cons.mp h with rfl | h2
        · rfl
        · simp only [List.mem_singleton] at h2; subst h2; rfl
      · exact hevs e h
    cases rr with
    | error e =>
      exact ⟨[Event.searchSubnet p.name, Event.getSubnet s0.id] ++ evs, [],
        by rw [ensure_error_some p w evs e s0 hs hpo] <;> simp, hreads2, by simp⟩
    | ok d =>
      by_cases ha : p.state = "absent"
      · exact ⟨[Event.searchSubnet p.name, Event.getSubnet s0.id] ++ evs,
          [Event.deleteSubnet (fetched w s0).id],
          by rw [ensure_delete p w evs d s0 hs ha hpo] <;> simp, hreads2, by simp⟩
      · cases hq : subnets_equal d (fetched w s0).record with
        | none =>
          exact ⟨[Event.searchSubnet p.name, Event.getSubnet s0.id] ++ evs, [],
            by rw [ensure_crash p w evs d s0 hs ha hpo hq] <;> simp,
            hreads2, by simp⟩
        | some b =>
         cases b with
         | true =>
          exact ⟨[Event.searchSubnet p.name, Event.getSubnet s0.id] ++ evs, [],
            by rw [ensure_noop_equal p w evs d s0 hs ha hpo hq] <;> simp,
            hreads2, by simp⟩
         | false =>
          exact ⟨[Event.searchSubnet p.name, Event.getSubnet s0.id] ++ evs,
            [Event.updateSubnet (fetched w s0).id],
            by rw [ensure_update p w evs d s0 hs ha hpo hq] <;> simp,
            hreads2, by simp⟩

/-- C7: the two-run idempotence claim fails on the code at the spec's own
section-8 example: desired state `pCreate` (name, network, mask, state
present, `domains` omitted) against an empty remote.  The first run creates
the subnet and reports changed=true; the second run, with unchanged desired
state and no external mutation in between, finds the subnet, passes the
scalar comparison (the stored record echoes the sent data), and crashes
with an uncaught TypeError in `domains_equal` because `data['domains']` is
`None` — instead of reporting changed=false. -/
theorem C7_second_run_crashes :
    (ensure pCreate wEmpty).outcome = Except.ok (true, some dCreate) ∧
    (ensure pCreate (ensure pCreate wEmpty).world).outcome
      = Except.error Err.typeError ∧
    mutatingEvents (ensure pCreate (ensure pCreate wEmpty).world).events
      = [] := by
  refine ⟨rfl, rfl, rfl⟩
